import Mathlib

/-!
Verification of a minimal 24-bit BMP codec (`src/bmp.rs`).

The Rust source is shallowly embedded: byte buffers are `List Nat` (each
element a byte value), `u32`/`u16` arithmetic is `Nat` with an explicit
`% 2 ^ 32` / `% 2 ^ 16` where wrap-around matters, fallible parsing returns
an explicit result type, and a Rust panic (out-of-range slice or index,
division by zero) is a distinguished `crash` outcome.  File I/O is the
external collaborator: the encoder is modelled up to the byte buffer it
hands to the sink, the decoder takes the byte buffer the source produced.
-/

namespace Bmp

/-- Embedding of `enum Error` from `bmp.rs`.  `FileError` wraps any I/O
failure, including read underflow (`read_exact` on a too-short slice). -/
inductive Error where
  | FileError
  | InvalidSignature
  | InvalidHeaderSize (v : Nat)
  | UnsupportedPlaneCount (v : Nat)
  | UnsupportedColorDepth (v : Nat)
  | UnsupportedCompression (v : Nat)
deriving DecidableEq, Repr

/-- Outcome of a Rust computation that may return a value, return an
`Error`, or panic (`crash`: an out-of-range slice index such as
`&src[..14]` on a shorter slice, an out-of-range `Vec` index, or an
integer division by zero). -/
inductive PResult (α : Type) where
  | crash
  | error (e : Error)
  | ok (a : α)
deriving DecidableEq, Repr

/-- Embedding of `struct Rgb`: three 8-bit channels, as `Nat`s. -/
structure Rgb where
  r : Nat
  g : Nat
  b : Nat
deriving DecidableEq, Repr

/-- `Rgb::new(r, g, b)`. -/
def Rgb.new (r g b : Nat) : Rgb := ⟨r, g, b⟩

/-- `Rgb::default()`: all channels zero. -/
def Rgb.default : Rgb := ⟨0, 0, 0⟩

/-- Embedding of `struct RgbImage`: an ordered pixel list plus a width.
Height is derived, never stored. -/
structure RgbImage where
  pixels : List Rgb
  width : Nat
deriving DecidableEq, Repr

/-- `read_u8`: consume one byte from the front; underflow is the wrapped
I/O error. -/
def read_u8 (src : List Nat) : Except Error (List Nat × Nat) :=
  match src with
  | [] => .error .FileError
  | b :: rest => .ok (rest, b)

/-- `read_u16`: consume two bytes, little-endian (`bytes[0] | bytes[1] << 8`). -/
def read_u16 (src : List Nat) : Except Error (List Nat × Nat) :=
  match src with
  | b0 :: b1 :: rest => .ok (rest, b0 ||| (b1 <<< 8))
  | _ => .error .FileError

/-- `read_u32`: consume four bytes, little-endian
(`bytes[0] | bytes[1] << 8 | bytes[2] << 16 | bytes[3] << 24`). -/
def read_u32 (src : List Nat) : Except Error (List Nat × Nat) :=
  match src with
  | b0 :: b1 :: b2 :: b3 :: rest =>
      .ok (rest, b0 ||| (b1 <<< 8) ||| (b2 <<< 16) ||| (b3 <<< 24))
  | _ => .error .FileError

/-- The little-endian bytes of a `u16` value (`u16::to_le_bytes`). -/
def u16_le (val : Nat) : List Nat :=
  [val % 2 ^ 8, val / 2 ^ 8 % 2 ^ 8]

/-- The little-endian bytes of a `u32` value (`u32::to_le_bytes`). -/
def u32_le (val : Nat) : List Nat :=
  [val % 2 ^ 8, val / 2 ^ 8 % 2 ^ 8, val / 2 ^ 16 % 2 ^ 8, val / 2 ^ 24 % 2 ^ 8]

/-- `write_u8`: append one byte to the buffer. -/
def write_u8 (buff : List Nat) (val : Nat) : List Nat := buff ++ [val]

/-- `write_u16`: append the two little-endian bytes of `val`. -/
def write_u16 (buff : List Nat) (val : Nat) : List Nat := buff ++ u16_le val

/-- `write_u32`: append the four little-endian bytes of `val`. -/
def write_u32 (buff : List Nat) (val : Nat) : List Nat := buff ++ u32_le val

/-- The row-padding computation `(4 - ((width * 3) % 4)) % 4` appearing
verbatim in both `save_bmp` (line 72) and `read_pixels` (line 179); the
multiplication `width * 3` is `u32` arithmetic, hence the inner
`% 2 ^ 32`. -/
def padding_of (width : Nat) : Nat :=
  (4 - (width * 3) % 2 ^ 32 % 4) % 4

/-- Inner encoder loop `for j in 0..width` of `save_bmp`: with `m`
iterations remaining at loop counter `j`, emit the `B`, `G`, `R` bytes of
pixel `base + j` (the index `i * width + j`, computed in `u32` arithmetic)
for each iteration.  An out-of-bounds pixel index is a Rust panic,
modelled as `none`. -/
def write_px_cols (pixels : List Rgb) (base : Nat) : Nat → Nat → Option (List Nat)
  | _, 0 => some []
  | j, m + 1 =>
    match pixels[(base + j) % 2 ^ 32]? with
    | none => none
    | some p =>
      match write_px_cols pixels base (j + 1) m with
      | none => none
      | some rest => some (p.b :: p.g :: p.r :: rest)

/-- Outer encoder loop `for i in 0..height` of `save_bmp`: rows are written
bottom-up, so with `n + 1` iterations remaining the (shadowed) source row
index `i = height - i - 1` equals `n`; after each row's pixel bytes,
`padding` zero bytes are appended. -/
def write_px_rows (pixels : List Rgb) (width padding : Nat) : Nat → Option (List Nat)
  | 0 => some []
  | n + 1 =>
    match write_px_cols pixels (n * width % 2 ^ 32) 0 width with
    | none => none
    | some row =>
      match write_px_rows pixels width padding n with
      | none => none
      | some rest => some (row ++ List.replicate padding 0 ++ rest)

/-- Embedding of `RgbImage::save_bmp`, up to the byte buffer handed to the
file sink (the `File::create`/`write_all` collaborator is external).
`none` models a panic: `len / width` with `width == 0`, or an
out-of-bounds pixel index.  `len` is `self.pixels.len() as u32`, a
truncating cast. -/
def save_bmp (img : RgbImage) : Option (List Nat) :=
  let width := img.width
  let len := img.pixels.length % 2 ^ 32
  let header_size := 14
  let info_header_size := 40
  let padding := padding_of width
  if width = 0 then none
  else
    let height := len / width
    let file_size := (header_size + info_header_size + height * padding + len * 3) % 2 ^ 32
    let data_offset := header_size + info_header_size
    match write_px_rows img.pixels width padding height with
    | none => none
    | some px =>
      let buff : List Nat := []
      let buff := write_u8 buff 66
      let buff := write_u8 buff 77
      let buff := write_u32 buff file_size
      let buff := write_u32 buff 0
      let buff := write_u32 buff data_offset
      let buff := write_u32 buff info_header_size
      let buff := write_u32 buff width
      let buff := write_u32 buff height
      let buff := write_u16 buff 1
      let buff := write_u16 buff 24
      let buff := write_u32 buff 0
      let buff := write_u32 buff 0
      let buff := write_u32 buff width
      let buff := write_u32 buff height
      let buff := write_u32 buff 16777216
      let buff := write_u32 buff 0
      some (buff ++ px)

/-- Embedding of `read_header`.  The leftover `dbg!(&src[..14])` on
line 131 panics whenever fewer than 14 bytes remain; otherwise the 14
header bytes are consumed and only then is the signature checked. -/
def read_header (src : List Nat) : PResult (List Nat) :=
  if src.length < 14 then .crash
  else
    match read_u8 src with
    | .error e => .error e
    | .ok (src, letter_b) =>
    match read_u8 src with
    | .error e => .error e
    | .ok (src, letter_m) =>
    match read_u32 src with
    | .error e => .error e
    | .ok (src, _file_size) =>
    match read_u32 src with
    | .error e => .error e
    | .ok (src, _reserved) =>
    match read_u32 src with
    | .error e => .error e
    | .ok (src, _data_offset) =>
    if letter_b ≠ 66 then .error .InvalidSignature
    else if letter_m ≠ 77 then .error .InvalidSignature
    else .ok src

/-- Embedding of `read_info_header`.  The leftover `dbg!(&src[..40])` on
line 149 panics whenever fewer than 40 bytes remain; otherwise all 40
bytes are consumed and then size, planes, depth and compression are
validated, in that order. -/
def read_info_header (src : List Nat) : PResult (List Nat × Nat × Nat) :=
  if src.length < 40 then .crash
  else
    match read_u32 src with
    | .error e => .error e
    | .ok (src, header_size) =>
    match read_u32 src with
    | .error e => .error e
    | .ok (src, width) =>
    match read_u32 src with
    | .error e => .error e
    | .ok (src, height) =>
    match read_u16 src with
    | .error e => .error e
    | .ok (src, planes) =>
    match read_u16 src with
    | .error e => .error e
    | .ok (src, bits_per_pixel) =>
    match read_u32 src with
    | .error e => .error e
    | .ok (src, compression) =>
    match read_u32 src with
    | .error e => .error e
    | .ok (src, _file_size) =>
    match read_u32 src with
    | .error e => .error e
    | .ok (src, _horiz_pixel_per_meter) =>
    match read_u32 src with
    | .error e => .error e
    | .ok (src, _vert_pixel_per_meter) =>
    match read_u32 src with
    | .error e => .error e
    | .ok (src, _colors_used) =>
    match read_u32 src with
    | .error e => .error e
    | .ok (src, _important_colors) =>
    if header_size ≠ 40 then .error (.InvalidHeaderSize header_size)
    else if planes ≠ 1 then .error (.UnsupportedPlaneCount planes)
    else if bits_per_pixel ≠ 24 then .error (.UnsupportedColorDepth bits_per_pixel)
    else if compression ≠ 0 then .error (.UnsupportedCompression compression)
    else .ok (src, width, height)

/-- The `for _ in 0..padding` skip loop of `read_pixels`: read and discard
`n` bytes. -/
def skip_bytes : Nat → List Nat → Except Error (List Nat)
  | 0, src => .ok src
  | n + 1, src =>
    match read_u8 src with
    | .error e => .error e
    | .ok (next, _) => skip_bytes n next

/-- Inner decoder loop `for j in 0..width` of `read_pixels`: with `m`
iterations remaining at loop counter `j`, read three bytes `b`, `g`, `r`
and store `Rgb::new(r, g, b)` at index `base + j` (computed in `u32`
arithmetic); an out-of-bounds store is a Rust panic. -/
def read_px_cols (base : Nat) : Nat → Nat → List Nat → List Rgb → PResult (List Nat × List Rgb)
  | _, 0, src, pixels => .ok (src, pixels)
  | j, m + 1, src, pixels =>
    match read_u8 src with
    | .error e => .error e
    | .ok (next, b) =>
    match read_u8 next with
    | .error e => .error e
    | .ok (next, g) =>
    match read_u8 next with
    | .error e => .error e
    | .ok (next, r) =>
    if (base + j) % 2 ^ 32 < pixels.length then
      read_px_cols base (j + 1) m next (pixels.set ((base + j) % 2 ^ 32) (Rgb.new r g b))
    else .crash

/-- Outer decoder loop `for i in 0..height` of `read_pixels`: rows are
stored bottom-up, so with `n + 1` iterations remaining the (shadowed)
destination row index `i = height - i - 1` equals `n`; after each row,
`padding` bytes are skipped. -/
def read_px_rows (width padding : Nat) : Nat → List Nat → List Rgb → PResult (List Nat × List Rgb)
  | 0, src, pixels => .ok (src, pixels)
  | n + 1, src, pixels =>
    match read_px_cols (n * width % 2 ^ 32) 0 width src pixels with
    | .crash => .crash
    | .error e => .error e
    | .ok (src, pixels) =>
    match skip_bytes padding src with
    | .error e => .error e
    | .ok src => read_px_rows width padding n src pixels

/-- Embedding of `read_pixels`: compute the padding, allocate
`width * height` (a `u32` product) default pixels, then run the row loop. -/
def read_pixels (src : List Nat) (width height : Nat) : PResult (List Nat × List Rgb) :=
  read_px_rows width (padding_of width) height src
    (List.replicate (width * height % 2 ^ 32) Rgb.default)

/-- Embedding of `RgbImage::load_bmp` from the byte buffer the file source
produced (the `File::open`/`read_to_end` collaborator is external). -/
def load_bmp (buff : List Nat) : PResult RgbImage :=
  match read_header buff with
  | .crash => .crash
  | .error e => .error e
  | .ok src =>
  match read_info_header src with
  | .crash => .crash
  | .error e => .error e
  | .ok (src, width, height) =>
  match read_pixels src width height with
  | .crash => .crash
  | .error e => .error e
  | .ok (_, pixels) => .ok { pixels := pixels, width := width }

/-- A BMP byte buffer laid out field by field: two signature bytes, the
twelve remaining file-header bytes, the 40 info-header bytes, then the
pixel-data bytes `tail`.  Used to state claims about whole-buffer decoding. -/
def mk_bmp_bytes (b0 b1 fs rsv off hs w h pl bpp comp cs hr vr cu ic : Nat)
    (tail : List Nat) : List Nat :=
  b0 :: b1 :: (u32_le fs ++ u32_le rsv ++ u32_le off ++ u32_le hs ++ u32_le w ++
    u32_le h ++ u16_le pl ++ u16_le bpp ++ u32_le comp ++ u32_le cs ++ u32_le hr ++
    u32_le vr ++ u32_le cu ++ u32_le ic ++ tail)

/-- The bytes of logical pixel row `r`: the `width` pixels starting at index
`r * width`, left to right, each contributing its `B`, `G`, `R` channel
bytes in that order. -/
def row_bytes (pixels : List Rgb) (width r : Nat) : List Nat :=
  (((pixels.drop (r * width)).take width).map (fun p => [p.b, p.g, p.r])).flatten


theorem lor_two_pow_add (k : Nat) : ∀ a b : Nat, a < 2 ^ k → a ||| b * 2 ^ k = a + b * 2 ^ k := by
  induction k with
  | zero =>
    intro a b h
    have : a = 0 := by omega
    subst this
    simp
  | succ k ih =>
    intro a b h
    have ha : a / 2 < 2 ^ k := by
      rw [Nat.div_lt_iff_lt_mul (by norm_num)]
      calc a < 2 ^ (k + 1) := h
        _ = 2 ^ k * 2 := by ring
    have h1 : Nat.bit (decide (a % 2 = 1)) (a >>> 1) = a :=
      Nat.bit_decide_mod_two_eq_one_shiftRight_one a
    have h2 : b * 2 ^ (k + 1) = Nat.bit false (b * 2 ^ k) := by
      simp [Nat.bit_val]
      ring
    calc a ||| b * 2 ^ (k + 1)
        = Nat.bit (decide (a % 2 = 1)) (a >>> 1) ||| Nat.bit false (b * 2 ^ k) := by
          rw [h1, h2]
      _ = Nat.bit (decide (a % 2 = 1) || false) ((a >>> 1) ||| b * 2 ^ k) :=
          Nat.lor_bit _ _ _ _
      _ = Nat.bit (decide (a % 2 = 1)) (a / 2 + b * 2 ^ k) := by
          rw [Bool.or_false, Nat.shiftRight_one, ih (a / 2) b ha]
      _ = a + b * 2 ^ (k + 1) := by
          rw [Nat.bit_val, pow_succ, ← mul_assoc]
          have hd : (decide (a % 2 = 1)).toNat = a % 2 := by
            rcases Nat.mod_two_eq_zero_or_one a with h2' | h2' <;> simp [h2']
          rw [hd]
          generalize b * 2 ^ k = y
          omega

theorem u16_recompose (v : Nat) (h : v < 2 ^ 16) :
    v % 2 ^ 8 ||| (v / 2 ^ 8 % 2 ^ 8) <<< 8 = v := by
  rw [Nat.shiftLeft_eq, lor_two_pow_add 8 (v % 2 ^ 8) (v / 2 ^ 8 % 2 ^ 8) (by omega)]
  omega

theorem u32_recompose (v : Nat) (h : v < 2 ^ 32) :
    v % 2 ^ 8 ||| (v / 2 ^ 8 % 2 ^ 8) <<< 8 ||| (v / 2 ^ 16 % 2 ^ 8) <<< 16 |||
      (v / 2 ^ 24 % 2 ^ 8) <<< 24 = v := by
  rw [Nat.shiftLeft_eq, Nat.shiftLeft_eq, Nat.shiftLeft_eq]
  have e1 : v % 2 ^ 8 ||| v / 2 ^ 8 % 2 ^ 8 * 2 ^ 8 = v % 2 ^ 16 := by
    rw [lor_two_pow_add 8 (v % 2 ^ 8) (v / 2 ^ 8 % 2 ^ 8) (by omega)]
    omega
  rw [e1]
  have e2 : v % 2 ^ 16 ||| v / 2 ^ 16 % 2 ^ 8 * 2 ^ 16 = v % 2 ^ 24 := by
    rw [lor_two_pow_add 16 (v % 2 ^ 16) (v / 2 ^ 16 % 2 ^ 8) (by omega)]
    omega
  rw [e2]
  rw [lor_two_pow_add 24 (v % 2 ^ 24) (v / 2 ^ 24 % 2 ^ 8) (by omega)]
  omega


theorem length_u32_le (v : Nat) : (u32_le v).length = 4 := by simp [u32_le]

theorem length_u16_le (v : Nat) : (u16_le v).length = 2 := by simp [u16_le]

theorem read_header_mk (b0 b1 fs rsv off : Nat) (rest : List Nat) :
    read_header (b0 :: b1 :: (u32_le fs ++ (u32_le rsv ++ (u32_le off ++ rest)))) =
      if b0 ≠ 66 then .error .InvalidSignature
      else if b1 ≠ 77 then .error .InvalidSignature
      else .ok rest := by
  simp only [u32_le, List.cons_append, List.nil_append, read_header]
  rw [if_neg (by simp only [List.length_cons]; omega)]
  simp only [read_u8, read_u32]

theorem read_info_header_mk (hs w h pl bpp comp cs hr vr cu ic : Nat)
    (tail : List Nat) (hhs : hs < 2 ^ 32) (hw : w < 2 ^ 32) (hh : h < 2 ^ 32)
    (hpl : pl < 2 ^ 16) (hbpp : bpp < 2 ^ 16) (hcomp : comp < 2 ^ 32) :
    read_info_header (u32_le hs ++ (u32_le w ++ (u32_le h ++ (u16_le pl ++ (u16_le bpp ++
        (u32_le comp ++ (u32_le cs ++ (u32_le hr ++ (u32_le vr ++ (u32_le cu ++
        (u32_le ic ++ tail))))))))))) =
      if hs ≠ 40 then .error (.InvalidHeaderSize hs)
      else if pl ≠ 1 then .error (.UnsupportedPlaneCount pl)
      else if bpp ≠ 24 then .error (.UnsupportedColorDepth bpp)
      else if comp ≠ 0 then .error (.UnsupportedCompression comp)
      else .ok (tail, w, h) := by
  simp only [u32_le, u16_le, List.cons_append, List.nil_append, read_info_header]
  rw [if_neg (by simp only [List.length_cons]; omega)]
  simp only [read_u8, read_u16, read_u32]
  rw [u32_recompose hs hhs, u32_recompose w hw, u32_recompose h hh,
    u16_recompose pl hpl, u16_recompose bpp hbpp, u32_recompose comp hcomp]

theorem read_header_mk_ok (fs rsv off : Nat) (rest : List Nat) :
    read_header (66 :: 77 :: (u32_le fs ++ (u32_le rsv ++ (u32_le off ++ rest)))) = .ok rest := by
  rw [read_header_mk]
  simp

theorem load_bmp_mk (fs rsv off hs w h pl bpp comp cs hr vr cu ic : Nat)
    (tail : List Nat) (hhs : hs < 2 ^ 32) (hw : w < 2 ^ 32) (hh : h < 2 ^ 32)
    (hpl : pl < 2 ^ 16) (hbpp : bpp < 2 ^ 16) (hcomp : comp < 2 ^ 32) :
    load_bmp (mk_bmp_bytes 66 77 fs rsv off hs w h pl bpp comp cs hr vr cu ic tail) =
      if hs ≠ 40 then .error (.InvalidHeaderSize hs)
      else if pl ≠ 1 then .error (.UnsupportedPlaneCount pl)
      else if bpp ≠ 24 then .error (.UnsupportedColorDepth bpp)
      else if comp ≠ 0 then .error (.UnsupportedCompression comp)
      else
        match read_pixels tail w h with
        | .crash => .crash
        | .error e => .error e
        | .ok (_, px) => .ok { pixels := px, width := w } := by
  unfold load_bmp
  simp only [mk_bmp_bytes, List.append_assoc, read_header_mk_ok,
    read_info_header_mk hs w h pl bpp comp cs hr vr cu ic tail hhs hw hh hpl hbpp hcomp]
  split_ifs <;> rfl

theorem write_px_cols_eq (pixels : List Rgb) (base : Nat) :
    ∀ (m j : Nat), base + j + m ≤ pixels.length → pixels.length < 2 ^ 32 →
      write_px_cols pixels base j m =
        some ((((pixels.drop (base + j)).take m).map (fun p => [p.b, p.g, p.r])).flatten) := by
  intro m
  induction m with
  | zero =>
    intro j hb h32
    simp [write_px_cols]
  | succ m ih =>
    intro j hb h32
    have hidx : base + j < pixels.length := by omega
    have hmod : (base + j) % 2 ^ 32 = base + j := Nat.mod_eq_of_lt (by omega)
    have hj1 : base + (j + 1) = base + j + 1 := by omega
    rw [write_px_cols, hmod, List.getElem?_eq_getElem hidx, ih (j + 1) (by omega) h32, hj1,
      List.drop_eq_getElem_cons hidx, List.take_succ_cons, List.map_cons, List.flatten_cons]
    rfl

theorem write_px_cols_length (pixels : List Rgb) (base : Nat) :
    ∀ (m j : Nat) (bs : List Nat), write_px_cols pixels base j m = some bs →
      bs.length = 3 * m := by
  intro m
  induction m with
  | zero =>
    intro j bs hbs
    simp [write_px_cols] at hbs
    simp [← hbs]
  | succ m ih =>
    intro j bs hbs
    rw [write_px_cols] at hbs
    cases h1 : pixels[(base + j) % 2 ^ 32]? with
    | none => rw [h1] at hbs; exact absurd hbs (by simp)
    | some p =>
      rw [h1] at hbs
      cases h2 : write_px_cols pixels base (j + 1) m with
      | none => rw [h2] at hbs; exact absurd hbs (by simp)
      | some rest =>
        rw [h2] at hbs
        simp only [Option.some_inj] at hbs
        have := ih (j + 1) rest h2
        simp [← hbs, List.length_cons, this]
        omega

theorem write_px_rows_eq (pixels : List Rgb) (width padding : Nat) :
    ∀ n : Nat, n * width ≤ pixels.length → pixels.length < 2 ^ 32 →
      write_px_rows pixels width padding n =
        some (((List.range n).map
          (fun i => row_bytes pixels width (n - 1 - i) ++ List.replicate padding 0)).flatten) := by
  intro n
  induction n with
  | zero =>
    intro hb h32
    simp [write_px_rows]
  | succ n ih =>
    intro hb h32
    have hb1 : n * width + width ≤ pixels.length := by
      rw [Nat.succ_mul] at hb
      omega
    have hmod : n * width % 2 ^ 32 = n * width := Nat.mod_eq_of_lt (by omega)
    rw [write_px_rows, hmod, write_px_cols_eq pixels (n * width) width 0 (by omega) h32,
      ih (by omega) h32]
    have hrow : (((pixels.drop (n * width + 0)).take width).map
        (fun p => [p.b, p.g, p.r])).flatten = row_bytes pixels width n := by
      rw [Nat.add_zero, row_bytes]
    rw [hrow, List.range_succ_eq_map, List.map_cons, List.flatten_cons]
    have hmap : (List.map Nat.succ (List.range n)).map
        (fun i => row_bytes pixels width (n + 1 - 1 - i) ++ List.replicate padding 0) =
        (List.range n).map (fun i => row_bytes pixels width (n - 1 - i) ++ List.replicate padding 0) := by
      rw [List.map_map]
      refine List.map_congr_left ?_
      intro a _
      simp only [Function.comp]
      have : n + 1 - 1 - Nat.succ a = n - 1 - a := by omega
      rw [this]
    rw [hmap]
    simp [List.append_assoc]

theorem write_px_rows_length (pixels : List Rgb) (width padding : Nat) :
    ∀ (n : Nat) (bs : List Nat), write_px_rows pixels width padding n = some bs →
      bs.length = n * (3 * width + padding) := by
  intro n
  induction n with
  | zero =>
    intro bs hbs
    simp [write_px_rows] at hbs
    simp [← hbs]
  | succ n ih =>
    intro bs hbs
    rw [write_px_rows] at hbs
    cases h1 : write_px_cols pixels (n * width % 2 ^ 32) 0 width with
    | none => rw [h1] at hbs; exact absurd hbs (by simp)
    | some row =>
      rw [h1] at hbs
      cases h2 : write_px_rows pixels width padding n with
      | none => rw [h2] at hbs; exact absurd hbs (by simp)
      | some rest =>
        rw [h2] at hbs
        simp only [Option.some_inj] at hbs
        have e1 := write_px_cols_length pixels (n * width % 2 ^ 32) width 0 row h1
        have e2 := ih rest h2
        rw [← hbs]
        simp [List.length_append, List.length_replicate, e1, e2, Nat.succ_mul]
        omega

theorem skip_bytes_replicate (n x : Nat) (rest : List Nat) :
    skip_bytes n (List.replicate n x ++ rest) = .ok rest := by
  induction n with
  | zero => simp [skip_bytes]
  | succ n ih => simp [skip_bytes, List.replicate_succ, read_u8, ih]

theorem save_bmp_eq (img : RgbImage) (h : Nat) (hw : 0 < img.width)
    (hlen : img.pixels.length = img.width * h) (hw32 : img.width < 2 ^ 32)
    (hl32 : img.pixels.length < 2 ^ 32) :
    save_bmp img = some (mk_bmp_bytes 66 77
      ((14 + 40 + h * padding_of img.width + img.pixels.length % 2 ^ 32 * 3) % 2 ^ 32)
      0 54 40 img.width h 1 24 0 0 img.width h 16777216 0
      (((List.range h).map
        (fun i => row_bytes img.pixels img.width (h - 1 - i) ++
          List.replicate (padding_of img.width) 0)).flatten)) := by
  have hmod : img.pixels.length % 2 ^ 32 = img.pixels.length := Nat.mod_eq_of_lt hl32
  have hdiv : img.pixels.length % 2 ^ 32 / img.width = h := by
    rw [hmod, hlen, Nat.mul_div_cancel_left h hw]
  have hrows : h * img.width ≤ img.pixels.length := by
    rw [hlen, Nat.mul_comm]
  have hdiv2 : img.pixels.length / img.width = h := by
    rw [hlen, Nat.mul_div_cancel_left h hw]
  rw [save_bmp]
  rw [if_neg (by omega)]
  simp only [hmod, hdiv, hdiv2,
    write_px_rows_eq img.pixels img.width (padding_of img.width) h hrows hl32,
    mk_bmp_bytes, write_u8, write_u16, write_u32, List.append_assoc,
    List.cons_append, List.nil_append]

theorem read_px_cols_inv (pixels : List Rgb) (base : Nat) :
    ∀ (m j : Nat) (px0 : List Rgb) (rest : List Nat),
      base + j + m ≤ pixels.length → px0.length = pixels.length → pixels.length < 2 ^ 32 →
      read_px_cols base j m
        ((((pixels.drop (base + j)).take m).map (fun p => [p.b, p.g, p.r])).flatten ++ rest) px0 =
        .ok (rest, px0.take (base + j) ++ (pixels.drop (base + j)).take m ++ px0.drop (base + j + m)) := by
  intro m
  induction m with
  | zero =>
    intro j px0 rest hb hlen h32
    simp [read_px_cols, List.take_append_drop]
  | succ m ih =>
    intro j px0 rest hb hlen h32
    have hidx : base + j < pixels.length := by omega
    have hidx0 : base + j < px0.length := by omega
    have hmod : (base + j) % 2 ^ 32 = base + j := Nat.mod_eq_of_lt (by omega)
    rw [List.drop_eq_getElem_cons hidx, List.take_succ_cons, List.map_cons, List.flatten_cons]
    rw [read_px_cols]
    simp only [List.cons_append, List.nil_append, List.append_assoc, read_u8, hmod]
    rw [if_pos hidx0]
    have hp : Rgb.new (pixels[base + j]).r (pixels[base + j]).g (pixels[base + j]).b
        = pixels[base + j] := rfl
    rw [hp]
    have IH := ih (j + 1) (px0.set (base + j) pixels[base + j]) rest (by omega)
      (by rw [List.length_set]; exact hlen) h32
    rw [show base + (j + 1) = base + j + 1 from by omega] at IH
    rw [IH]
    have e1 : px0.set (base + j) pixels[base + j]
        = px0.take (base + j) ++ pixels[base + j] :: px0.drop (base + j + 1) :=
      List.set_eq_take_cons_drop pixels[base + j] hidx0
    have elen : (px0.take (base + j)).length = base + j := List.length_take_of_le (by omega)
    have e2 : (px0.set (base + j) pixels[base + j]).take (base + j + 1)
        = px0.take (base + j) ++ [pixels[base + j]] := by
      rw [e1, show base + j + 1 = (px0.take (base + j)).length + 1 from by rw [elen]]
      rw [List.take_append]
      rfl
    have e3 : (px0.set (base + j) pixels[base + j]).drop (base + j + 1 + m)
        = px0.drop (base + j + 1 + m) := by
      rw [List.drop_set, if_pos (by omega)]
    rw [e2, e3, show base + j + 1 + m = base + j + (m + 1) from by omega]
    simp [List.append_assoc]

theorem read_px_rows_inv (pixels : List Rgb) (width padding : Nat) :
    ∀ (n : Nat) (px0 : List Rgb) (rest : List Nat),
      n * width ≤ pixels.length → px0.length = pixels.length → pixels.length < 2 ^ 32 →
      read_px_rows width padding n
        ((((List.range n).map
          (fun i => row_bytes pixels width (n - 1 - i) ++ List.replicate padding 0)).flatten) ++ rest)
        px0 =
        .ok (rest, pixels.take (n * width) ++ px0.drop (n * width)) := by
  intro n
  induction n with
  | zero =>
    intro px0 rest hb hlen h32
    simp [read_px_rows]
  | succ n ih =>
    intro px0 rest hb hlen h32
    have hb1 : n * width + width ≤ pixels.length := by
      rw [Nat.succ_mul] at hb
      omega
    have hmod : n * width % 2 ^ 32 = n * width := Nat.mod_eq_of_lt (by omega)
    rw [List.range_succ_eq_map, List.map_cons, List.flatten_cons]
    have hmap : (List.map Nat.succ (List.range n)).map
        (fun i => row_bytes pixels width (n + 1 - 1 - i) ++ List.replicate padding 0) =
        (List.range n).map (fun i => row_bytes pixels width (n - 1 - i) ++ List.replicate padding 0) := by
      rw [List.map_map]
      refine List.map_congr_left ?_
      intro a _
      simp only [Function.comp]
      have e : n + 1 - 1 - Nat.succ a = n - 1 - a := by omega
      rw [e]
    rw [hmap]
    have e0 : n + 1 - 1 - 0 = n := by omega
    rw [e0, read_px_rows, hmod]
    have hcols := read_px_cols_inv pixels (n * width) width 0 px0
      (List.replicate padding 0 ++
        (((List.range n).map
          (fun i => row_bytes pixels width (n - 1 - i) ++ List.replicate padding 0)).flatten ++ rest))
      (by omega) hlen h32
    rw [Nat.add_zero] at hcols
    rw [row_bytes, List.append_assoc, List.append_assoc, hcols]
    simp only [skip_bytes_replicate]
    have hl1 : (px0.take (n * width)).length = n * width := List.length_take_of_le (by omega)
    have hl2 : ((pixels.drop (n * width)).take width).length = width :=
      List.length_take_of_le (by rw [List.length_drop]; omega)
    have hlen1 : (px0.take (n * width) ++ (pixels.drop (n * width)).take width ++
        px0.drop (n * width + width)).length = pixels.length := by
      simp only [List.length_append, hl1, hl2, List.length_drop]
      omega
    rw [ih _ rest (by omega) hlen1 h32]
    have e1 : (px0.take (n * width) ++ (pixels.drop (n * width)).take width ++
        px0.drop (n * width + width)).drop (n * width) =
        (pixels.drop (n * width)).take width ++ px0.drop (n * width + width) := by
      rw [List.append_assoc]
      exact List.drop_left' hl1
    rw [e1, Nat.succ_mul, List.take_add, List.append_assoc]

/-- Claim C1: for every `Image` with `width > 0` and
`pixel_count % width == 0` (with its `u32`/`u8` fields in range), decoding
the byte buffer produced by encoding yields an image with the same pixel
sequence and the same width, every channel value preserved exactly. -/
theorem save_load_roundtrip (img : RgbImage) (hw : 0 < img.width)
    (hmodw : img.pixels.length % img.width = 0)
    (hw32 : img.width < 2 ^ 32) (hl32 : img.pixels.length < 2 ^ 32) :
    ∃ buf, save_bmp img = some buf ∧
      load_bmp buf = .ok { pixels := img.pixels, width := img.width } := by
  have hlen : img.pixels.length = img.width * (img.pixels.length / img.width) :=
    (Nat.mul_div_cancel' (Nat.dvd_of_mod_eq_zero hmodw)).symm
  set h := img.pixels.length / img.width with hh
  have hhle : h < 2 ^ 32 := lt_of_le_of_lt (Nat.div_le_self _ _) hl32
  refine ⟨_, save_bmp_eq img h hw hlen hw32 hl32, ?_⟩
  rw [load_bmp_mk _ _ _ _ img.width h _ _ _ _ _ _ _ _ _ (by norm_num) hw32 hhle
    (by norm_num) (by norm_num) (by norm_num)]
  rw [if_neg (by norm_num), if_neg (by norm_num), if_neg (by norm_num), if_neg (by norm_num)]
  rw [read_pixels]
  have hmul : img.width * h % 2 ^ 32 = img.pixels.length := by
    rw [← hlen, Nat.mod_eq_of_lt hl32]
  rw [hmul]
  have hrows : h * img.width ≤ img.pixels.length := by
    rw [hlen, Nat.mul_comm]
  have hrepl : (List.replicate img.pixels.length Rgb.default).length = img.pixels.length :=
    List.length_replicate _ _
  have hinv := read_px_rows_inv img.pixels img.width (padding_of img.width) h
    (List.replicate img.pixels.length Rgb.default) [] hrows hrepl hl32
  rw [List.append_nil] at hinv
  rw [hinv]
  have htake : img.pixels.take (h * img.width) = img.pixels := by
    rw [Nat.mul_comm, ← hlen, List.take_length]
  have hdrop : (List.replicate img.pixels.length Rgb.default).drop (h * img.width) = [] := by
    rw [Nat.mul_comm, ← hlen, List.drop_replicate]
    simp
  rw [htake, hdrop, List.append_nil]

theorem save_load_roundtrip_witness :
    (0 < (1 : Nat) ∧ ([(⟨1, 2, 3⟩ : Rgb), ⟨4, 5, 6⟩].length % 1 = 0 ∧
      (1 : Nat) < 2 ^ 32 ∧ [(⟨1, 2, 3⟩ : Rgb), ⟨4, 5, 6⟩].length < 2 ^ 32)) ∧
    ∃ buf, save_bmp ⟨[⟨1, 2, 3⟩, ⟨4, 5, 6⟩], 1⟩ = some buf ∧
      load_bmp buf = .ok { pixels := [⟨1, 2, 3⟩, ⟨4, 5, 6⟩], width := 1 } :=
  ⟨⟨by decide, by decide, by decide, by decide⟩,
    save_load_roundtrip ⟨[⟨1, 2, 3⟩, ⟨4, 5, 6⟩], 1⟩ (by decide) (by decide) (by decide)
      (by decide)⟩

/-- Claim C8: for every width, the row padding used by encoder and decoder
(`padding_of`) equals `(4 - (width*3) % 4) % 4`, lies between 0 and 3, and
`width*3 + padding` is a multiple of 4, in `u32` (mod `2 ^ 32`) arithmetic. -/
theorem padding_law (width : Nat) :
    padding_of width = (4 - width * 3 % 4) % 4 ∧ padding_of width ≤ 3 ∧
      (width * 3 % 2 ^ 32 + padding_of width) % 2 ^ 32 % 4 = 0 := by
  unfold padding_of
  refine ⟨?_, ?_, ?_⟩ <;> omega

theorem length_mk_bmp_bytes (b0 b1 fs rsv off hs w h pl bpp comp cs hr vr cu ic : Nat)
    (tail : List Nat) :
    (mk_bmp_bytes b0 b1 fs rsv off hs w h pl bpp comp cs hr vr cu ic tail).length =
      54 + tail.length := by
  simp [mk_bmp_bytes, u32_le, u16_le]
  omega

theorem mk_bmp_bytes_append (b0 b1 fs rsv off hs w h pl bpp comp cs hr vr cu ic : Nat)
    (tail : List Nat) :
    mk_bmp_bytes b0 b1 fs rsv off hs w h pl bpp comp cs hr vr cu ic tail =
      mk_bmp_bytes b0 b1 fs rsv off hs w h pl bpp comp cs hr vr cu ic [] ++ tail := by
  simp [mk_bmp_bytes, u32_le, u16_le]

/-- Claim C3: under the encoder precondition, the produced buffer has
exactly `14 + 40 + height * padding + pixel_count * 3` bytes, and its
first 54 bytes are the signature `B`,`M` followed by the little-endian
fields: that file size, reserved 0, data offset 54, info-header size 40,
width, height, planes 1, bits-per-pixel 24, compression 0, compressed
size 0, horizontal resolution = width, vertical resolution = height,
colors-used 16777216, important-colors 0 (the concrete 2×2 example, 70
bytes in all, is the witness below). -/
theorem save_header_layout (img : RgbImage) (h : Nat) (hw : 0 < img.width)
    (hlen : img.pixels.length = img.width * h) (hw32 : img.width < 2 ^ 32)
    (hl32 : img.pixels.length < 2 ^ 32)
    (hfs : 14 + 40 + h * padding_of img.width + img.pixels.length * 3 < 2 ^ 32) :
    ∃ buf, save_bmp img = some buf ∧
      buf.length = 14 + 40 + h * padding_of img.width + img.pixels.length * 3 ∧
      buf.take 54 = mk_bmp_bytes 66 77
        (14 + 40 + h * padding_of img.width + img.pixels.length * 3)
        0 54 40 img.width h 1 24 0 0 img.width h 16777216 0 [] := by
  have hmod : img.pixels.length % 2 ^ 32 = img.pixels.length := Nat.mod_eq_of_lt hl32
  have hbuf := save_bmp_eq img h hw hlen hw32 hl32
  rw [hmod, Nat.mod_eq_of_lt hfs] at hbuf
  refine ⟨_, hbuf, ?_, ?_⟩
  · have hrows : h * img.width ≤ img.pixels.length := by rw [hlen, Nat.mul_comm]
    have htl := write_px_rows_length img.pixels img.width (padding_of img.width) h _
      (write_px_rows_eq img.pixels img.width (padding_of img.width) h hrows hl32)
    rw [length_mk_bmp_bytes, htl]
    have hmul : h * (3 * img.width + padding_of img.width) =
        3 * (img.width * h) + h * padding_of img.width := by ring
    rw [hmul, ← hlen]
    omega
  · rw [mk_bmp_bytes_append]
    exact List.take_left' (by rw [length_mk_bmp_bytes]; rfl)

theorem save_header_layout_witness :
    (0 < (2 : Nat) ∧
      ([(⟨255, 0, 0⟩ : Rgb), ⟨0, 255, 0⟩, ⟨0, 0, 255⟩, ⟨255, 255, 255⟩].length = 2 * 2) ∧
      (2 : Nat) < 2 ^ 32 ∧
      14 + 40 + 2 * padding_of 2 + 4 * 3 < 2 ^ 32) ∧
    ∃ buf,
      save_bmp ⟨[⟨255, 0, 0⟩, ⟨0, 255, 0⟩, ⟨0, 0, 255⟩, ⟨255, 255, 255⟩], 2⟩ = some buf ∧
      buf.length = 70 ∧
      buf.take 54 = mk_bmp_bytes 66 77 70 0 54 40 2 2 1 24 0 0 2 2 16777216 0 [] := by
  refine ⟨⟨by decide, by decide, by decide, by decide⟩, ?_⟩
  obtain ⟨buf, h1, h2, h3⟩ := save_header_layout
    ⟨[⟨255, 0, 0⟩, ⟨0, 255, 0⟩, ⟨0, 0, 255⟩, ⟨255, 255, 255⟩], 2⟩ 2
    (by decide) (by decide) (by decide) (by decide) (by decide)
  refine ⟨buf, h1, ?_, ?_⟩
  · rw [h2]; decide
  · rw [h3]; decide

/-- Claim C4: under the encoder precondition, the bytes after the 54-byte
header are exactly: for each on-disk row index `i` from `0` to
`height - 1`, the bytes of source logical row `height - i - 1` (pixels
left to right, each as its `B`, `G`, `R` bytes in that order) followed by
exactly `padding` zero bytes. -/
theorem save_pixel_layout (img : RgbImage) (h : Nat) (hw : 0 < img.width)
    (hlen : img.pixels.length = img.width * h) (hw32 : img.width < 2 ^ 32)
    (hl32 : img.pixels.length < 2 ^ 32) :
    ∃ buf, save_bmp img = some buf ∧
      buf.drop 54 = ((List.range h).map
        (fun i => row_bytes img.pixels img.width (h - 1 - i) ++
          List.replicate (padding_of img.width) 0)).flatten := by
  refine ⟨_, save_bmp_eq img h hw hlen hw32 hl32, ?_⟩
  rw [mk_bmp_bytes_append]
  exact List.drop_left' (by rw [length_mk_bmp_bytes]; rfl)

theorem save_pixel_layout_witness :
    (0 < (2 : Nat) ∧ ([(⟨9, 8, 7⟩ : Rgb), ⟨6, 5, 4⟩].length = 2 * 1) ∧ (2 : Nat) < 2 ^ 32) ∧
    ∃ buf, save_bmp ⟨[⟨9, 8, 7⟩, ⟨6, 5, 4⟩], 2⟩ = some buf ∧
      buf.drop 54 = ((List.range 1).map
        (fun i => row_bytes [(⟨9, 8, 7⟩ : Rgb), ⟨6, 5, 4⟩] 2 (1 - 1 - i) ++
          List.replicate (padding_of 2) 0)).flatten :=
  ⟨⟨by decide, by decide, by decide⟩,
    save_pixel_layout ⟨[⟨9, 8, 7⟩, ⟨6, 5, 4⟩], 2⟩ 1 (by decide) (by decide) (by decide)
      (by decide)⟩

/-- Claim C9: under the encoder precondition (`width > 0` and
`pixel_count = width * height`, fields in `u32` range) the serialization
has no internal failure mode: no pixel access is out of bounds and no
division is undefined, so encoding always produces a buffer (`some`);
the only failure of the whole `save_bmp` operation in the source is the
external file-I/O collaborator, which is outside this buffer model. -/
theorem save_bmp_total (img : RgbImage) (h : Nat) (hw : 0 < img.width)
    (hlen : img.pixels.length = img.width * h) (hw32 : img.width < 2 ^ 32)
    (hl32 : img.pixels.length < 2 ^ 32) :
    ∃ buf, save_bmp img = some buf :=
  ⟨_, save_bmp_eq img h hw hlen hw32 hl32⟩

theorem save_bmp_total_witness :
    (0 < (1 : Nat) ∧ ([(⟨10, 20, 30⟩ : Rgb)].length = 1 * 1) ∧ (1 : Nat) < 2 ^ 32) ∧
    ∃ buf, save_bmp ⟨[⟨10, 20, 30⟩], 1⟩ = some buf :=
  ⟨⟨by decide, by decide, by decide⟩,
    save_bmp_total ⟨[⟨10, 20, 30⟩], 1⟩ 1 (by decide) (by decide) (by decide) (by decide)⟩

theorem read_u32_ok (src : List Nat) (h : 4 ≤ src.length) :
    ∃ v, read_u32 src = .ok (src.drop 4, v) := by
  rcases src with _ | ⟨a, _ | ⟨b, _ | ⟨c, _ | ⟨d, t⟩⟩⟩⟩
  all_goals first
    | exact ⟨_, rfl⟩
    | (exfalso; simp at h)

theorem read_header_not_bm (b0 b1 : Nat) (rest : List Nat) (hr : 12 ≤ rest.length)
    (hbad : b0 ≠ 66 ∨ b1 ≠ 77) :
    read_header (b0 :: b1 :: rest) = .error .InvalidSignature := by
  obtain ⟨v1, e1⟩ := read_u32_ok rest (by omega)
  obtain ⟨v2, e2⟩ := read_u32_ok (rest.drop 4) (by rw [List.length_drop]; omega)
  obtain ⟨v3, e3⟩ := read_u32_ok ((rest.drop 4).drop 4) (by
    rw [List.length_drop, List.length_drop]; omega)
  rw [read_header, if_neg (by simp only [List.length_cons]; omega)]
  simp only [read_u8, e1, e2, e3]
  by_cases h0 : b0 = 66
  · subst h0
    have hb1 : b1 ≠ 77 := by tauto
    rw [if_neg (by simp), if_pos hb1]
  · rw [if_pos h0]

theorem load_bmp_head_not_bm (b0 b1 : Nat) (rest : List Nat) (hr : 12 ≤ rest.length)
    (hbad : b0 ≠ 66 ∨ b1 ≠ 77) :
    load_bmp (b0 :: b1 :: rest) = .error .InvalidSignature := by
  rw [load_bmp, read_header_not_bm b0 b1 rest hr hbad]

theorem load_bmp_mk_info_violation (fs rsv off hs w h pl bpp comp cs hr vr cu ic : Nat)
    (tail : List Nat) (hhs : hs < 2 ^ 32) (hw : w < 2 ^ 32) (hh : h < 2 ^ 32)
    (hpl : pl < 2 ^ 16) (hbpp : bpp < 2 ^ 16) (hcomp : comp < 2 ^ 32)
    (hviol : hs ≠ 40 ∨ pl ≠ 1 ∨ bpp ≠ 24 ∨ comp ≠ 0) :
    load_bmp (mk_bmp_bytes 66 77 fs rsv off hs w h pl bpp comp cs hr vr cu ic tail) =
      if hs ≠ 40 then .error (.InvalidHeaderSize hs)
      else if pl ≠ 1 then .error (.UnsupportedPlaneCount pl)
      else if bpp ≠ 24 then .error (.UnsupportedColorDepth bpp)
      else .error (.UnsupportedCompression comp) := by
  rw [load_bmp_mk fs rsv off hs w h pl bpp comp cs hr vr cu ic tail hhs hw hh hpl hbpp hcomp]
  split_ifs <;> first | rfl | tauto

/-- Claim C2 (the code deviates from it): the spec says every truncated
buffer fails with the wrapped I/O error and never panics, but the leftover
`dbg!(&src[..14])` / `dbg!(&src[..40])` slices panic on any buffer shorter
than the 14-byte file header or (after it) the 40-byte info header; only
truncation inside the pixel rows produces `FileError`.  The failing inputs:
the empty buffer and a signature-only 14-byte buffer crash, while a
54-byte valid header truncated inside the pixel data does return the
wrapped I/O error. -/
theorem load_bmp_truncation_behavior :
    load_bmp [] = .crash ∧
    load_bmp (66 :: 77 :: List.replicate 12 0) = .crash ∧
    load_bmp (mk_bmp_bytes 66 77 0 0 54 40 1 1 1 24 0 0 0 0 0 0 [1, 2]) =
      .error .FileError := by
  refine ⟨by decide, by decide, by decide⟩

/-- Claim C5 (amended): provided the buffer is long enough for the checks
to be reached (14 bytes for the signature, the full 54-byte header region
for the info checks — shorter buffers panic in a leftover `dbg!` slice
before any check), an invalid signature yields `InvalidSignature`
regardless of every other field, and with a valid signature the reported
error is the first violated info-header constraint in the fixed order
size, planes, depth, compression; the pixel bytes `tail` are universally
quantified on both sides, so a malformed header never causes a pixel read
to influence the outcome. -/
theorem validation_order :
    (∀ (b0 b1 : Nat) (rest : List Nat), 12 ≤ rest.length → b0 ≠ 66 ∨ b1 ≠ 77 →
      load_bmp (b0 :: b1 :: rest) = .error .InvalidSignature) ∧
    (∀ (fs rsv off hs w h pl bpp comp cs hr vr cu ic : Nat) (tail : List Nat),
      hs < 2 ^ 32 → w < 2 ^ 32 → h < 2 ^ 32 → pl < 2 ^ 16 → bpp < 2 ^ 16 → comp < 2 ^ 32 →
      (hs ≠ 40 ∨ pl ≠ 1 ∨ bpp ≠ 24 ∨ comp ≠ 0) →
      load_bmp (mk_bmp_bytes 66 77 fs rsv off hs w h pl bpp comp cs hr vr cu ic tail) =
        if hs ≠ 40 then .error (.InvalidHeaderSize hs)
        else if pl ≠ 1 then .error (.UnsupportedPlaneCount pl)
        else if bpp ≠ 24 then .error (.UnsupportedColorDepth bpp)
        else .error (.UnsupportedCompression comp)) :=
  ⟨load_bmp_head_not_bm, load_bmp_mk_info_violation⟩

/-- Claim C5, counterexample to the unamended claim: the two-byte buffer
`[0, 77]` has an invalid signature, yet decoding does not return
`InvalidSignature` (it panics in the leftover `dbg!` slice of
`read_header`). -/
theorem validation_order_counterexample :
    load_bmp [0, 77] = .crash ∧
    ¬ load_bmp [0, 77] = .error .InvalidSignature := by
  refine ⟨by decide, by decide⟩

theorem validation_order_witness :
    load_bmp (70 :: 77 :: List.replicate 12 0) = .error .InvalidSignature ∧
    load_bmp (mk_bmp_bytes 66 77 0 0 54 38 4 4 2 8 1 0 0 0 0 0 []) =
      .error (.InvalidHeaderSize 38) := by
  constructor
  · exact validation_order.1 70 77 (List.replicate 12 0) (by decide) (Or.inl (by decide))
  · rw [validation_order.2 0 0 54 38 4 4 2 8 1 0 0 0 0 0 [] (by decide) (by decide)
      (by decide) (by decide) (by decide) (by decide) (Or.inl (by decide))]
    decide

/-- Claim C6 (amended): every buffer of length at least 14 whose first two
bytes are not `B`,`M` decodes to `InvalidSignature`; a shorter buffer
(such as `"XX"` followed by only eleven zero bytes) panics in the leftover
`dbg!` slice before the check is reached. -/
theorem signature_rejection (b0 b1 : Nat) (rest : List Nat) (hr : 12 ≤ rest.length)
    (hbad : b0 ≠ 66 ∨ b1 ≠ 77) :
    load_bmp (b0 :: b1 :: rest) = .error .InvalidSignature :=
  load_bmp_head_not_bm b0 b1 rest hr hbad

/-- Claim C6, counterexample to the unamended claim: the 13-byte buffer
`"XX"` followed by eleven zero bytes has first two bytes not `B`,`M`, yet
decoding does not yield `InvalidSignature` (it panics). -/
theorem signature_rejection_counterexample :
    load_bmp (88 :: 88 :: List.replicate 11 0) = .crash ∧
    ¬ load_bmp (88 :: 88 :: List.replicate 11 0) = .error .InvalidSignature := by
  refine ⟨by decide, by decide⟩

theorem signature_rejection_witness :
    load_bmp (88 :: 88 :: List.replicate 12 0) = .error .InvalidSignature :=
  signature_rejection 88 88 (List.replicate 12 0) (by decide) (Or.inl (by decide))

/-- Claim C7: flipping exactly one field of a minimal valid header yields
the matching error carrying the offending raw value: info-header size 38
gives `InvalidHeaderSize 38`, planes 2 gives `UnsupportedPlaneCount 2`,
bits-per-pixel 8 gives `UnsupportedColorDepth 8`, compression 1 gives
`UnsupportedCompression 1`. -/
theorem field_rejection :
    load_bmp (mk_bmp_bytes 66 77 0 0 54 38 0 0 1 24 0 0 0 0 0 0 []) =
      .error (.InvalidHeaderSize 38) ∧
    load_bmp (mk_bmp_bytes 66 77 0 0 54 40 0 0 2 24 0 0 0 0 0 0 []) =
      .error (.UnsupportedPlaneCount 2) ∧
    load_bmp (mk_bmp_bytes 66 77 0 0 54 40 0 0 1 8 0 0 0 0 0 0 []) =
      .error (.UnsupportedColorDepth 8) ∧
    load_bmp (mk_bmp_bytes 66 77 0 0 54 40 0 0 1 24 1 0 0 0 0 0 []) =
      .error (.UnsupportedCompression 1) := by
  refine ⟨by decide, by decide, by decide, by decide⟩

theorem read_px_rows_zero_width (h : Nat) :
    ∀ (src : List Nat) (px : List Rgb),
      read_px_rows 0 0 h src px = .ok (src, px) := by
  induction h with
  | zero => intro src px; rfl
  | succ n ih =>
    intro src px
    rw [read_px_rows]
    simp only [read_px_cols, skip_bytes, ih]

/-- Claim C10: a buffer with valid signature and a valid info header whose
width field is 0 decodes successfully for every height value, yielding an
image with width 0 and no pixels; there is no invalid-width error, and the
pixel loop consumes no bytes at all (`read_pixels` returns its input
unchanged). -/
theorem zero_width_decode :
    (∀ (fs rsv off h cs hr vr cu ic : Nat) (tail : List Nat), h < 2 ^ 32 →
      load_bmp (mk_bmp_bytes 66 77 fs rsv off 40 0 h 1 24 0 cs hr vr cu ic tail) =
        .ok { pixels := [], width := 0 }) ∧
    (∀ (src : List Nat) (h : Nat), read_pixels src 0 h = .ok (src, [])) := by
  have hpix : ∀ (src : List Nat) (h : Nat), read_pixels src 0 h = .ok (src, []) := by
    intro src h
    rw [read_pixels]
    simp only [Nat.zero_mul, Nat.zero_mod, List.replicate_zero]
    have hpad : padding_of 0 = 0 := by decide
    rw [hpad]
    exact read_px_rows_zero_width h src []
  refine ⟨?_, hpix⟩
  intro fs rsv off h cs hr vr cu ic tail hh
  rw [load_bmp_mk fs rsv off 40 0 h 1 24 0 cs hr vr cu ic tail (by norm_num) (by norm_num)
    hh (by norm_num) (by norm_num) (by norm_num)]
  rw [if_neg (by norm_num), if_neg (by norm_num), if_neg (by norm_num), if_neg (by norm_num)]
  rw [hpix tail h]

theorem zero_width_decode_witness :
    ((5 : Nat) < 2 ^ 32 ∧
      load_bmp (mk_bmp_bytes 66 77 0 0 54 40 0 5 1 24 0 0 0 0 0 0 [1, 2, 3]) =
        .ok { pixels := [], width := 0 }) ∧
    read_pixels [9] 0 3 = .ok ([9], []) :=
  ⟨⟨by decide, zero_width_decode.1 0 0 54 5 0 0 0 0 0 [1, 2, 3] (by decide)⟩,
    zero_width_decode.2 [9] 3⟩

end Bmp
